import Mathlib

/-!
Shallow embedding of src/make_table.py: the row-validity predicate
`row_is_valid` and the capped row selector `short_table`.

A table row is an ordered association list from column names to flux
values.  Looking up a column that is absent raises (a Python KeyError),
which we model with `Except String`: the error carries the missing
column name.  Python evaluates the operands of the non-short-circuiting
`&` eagerly, left to right, while the inner `or` short-circuits; the
definitions below perform the column lookups in exactly the order the
source expression does.
-/

/-- A single table row: an ordered list of (column name, flux value) pairs. -/
structure Row where
  cols : List (String × Int)
deriving DecidableEq

/-- Column access on a row.  Returns the stored value, or an error naming
the column when it is absent (Python raises KeyError). -/
def Row.getCol (r : Row) (name : String) : Except String Int :=
  match r.cols.find? (fun p => p.1 == name) with
  | some p => .ok p.2
  | none => .error name

/-- The disjunctive clause over ch1_swire_flux and ch1_servs_flux:
Python `or` short-circuits, so ch1_servs_flux is only looked up when
the comparison of ch1_swire_flux against lim is false. -/
def ch1_clause (row : Row) (lim : Int) : Except String Bool :=
  match row.getCol "ch1_swire_flux" with
  | .error e => .error e
  | .ok sw =>
    if sw > lim then .ok true
    else
      match row.getCol "ch1_servs_flux" with
      | .error e => .error e
      | .ok se => .ok (decide (se > lim))

/-- Embedding of row_is_valid(row, lim) from src/make_table.py.
The lookups happen eagerly in the left-to-right order of the source
expression (u_flux, g_flux, z_flux, r_flux, z_flux again, J_flux, the
ch1 or-clause, F_SPIRE_250, F_PACS_160, F_PACS_100, K_flux, F_MIPS_24);
the comparison results are combined with the non-short-circuiting `&`. -/
def row_is_valid (row : Row) (lim : Int) : Except String Bool :=
  match row.getCol "u_flux" with
  | .error e => .error e
  | .ok u =>
  match row.getCol "g_flux" with
  | .error e => .error e
  | .ok g =>
  match row.getCol "z_flux" with
  | .error e => .error e
  | .ok z1 =>
  match row.getCol "r_flux" with
  | .error e => .error e
  | .ok rr =>
  match row.getCol "z_flux" with
  | .error e => .error e
  | .ok z2 =>
  match row.getCol "J_flux" with
  | .error e => .error e
  | .ok j =>
  match ch1_clause row lim with
  | .error e => .error e
  | .ok orc =>
  match row.getCol "F_SPIRE_250" with
  | .error e => .error e
  | .ok f250 =>
  match row.getCol "F_PACS_160" with
  | .error e => .error e
  | .ok f160 =>
  match row.getCol "F_PACS_100" with
  | .error e => .error e
  | .ok f100 =>
  match row.getCol "K_flux" with
  | .error e => .error e
  | .ok k =>
  match row.getCol "F_MIPS_24" with
  | .error e => .error e
  | .ok f24 =>
  .ok (decide (u > lim) && decide (g > lim) && decide (z1 > lim) &&
       decide (rr > lim) && decide (z2 > lim) && decide (j > lim) &&
       orc && decide (f250 > lim) && decide (f160 > lim) &&
       decide (f100 > lim) && decide (k > lim) && decide (f24 > lim))

/-- Whether a row passes the predicate, as a Bool; an erroring row counts
as not valid.  Used only to describe the results of error-free scans. -/
def validB (lim : Int) (row : Row) : Bool :=
  match row_is_valid row lim with
  | .ok b => b
  | .error _ => false

/-- A table: column names, per-column dtypes, and the ordered rows. -/
structure Table where
  names : List String
  dtype : List String
  rows : List Row
deriving DecidableEq

/-- The scanning loop of short_table: for each row in order, first stop
if the selection already holds 50 rows, otherwise evaluate the predicate
and append the row when it is valid.  An error from the predicate aborts
the whole loop. -/
def short_table_loop (lim : Int) : List Row → List Row → Except String (List Row)
  | [], selection => .ok selection
  | row :: rest, selection =>
    if selection.length ≥ 50 then .ok selection
    else
      match row_is_valid row lim with
      | .error e => .error e
      | .ok true => short_table_loop lim rest (selection ++ [row])
      | .ok false => short_table_loop lim rest selection

/-- Embedding of short_table(table, lim) from src/make_table.py: start
from an empty selection carrying the schema of the source (names and
dtypes), scan the rows in order with the capped loop, and return the
selection as a table with that schema. -/
def short_table (table : Table) (lim : Int) : Except String Table :=
  match short_table_loop lim table.rows [] with
  | .error e => .error e
  | .ok selection => .ok { names := table.names, dtype := table.dtype, rows := selection }

/-- The predicate with the duplicated second z_flux conjunct removed: a
single strict comparison per each of the twelve enumerated columns, with
the same lookup order otherwise. -/
def row_is_valid_single (row : Row) (lim : Int) : Except String Bool :=
  match row.getCol "u_flux" with
  | .error e => .error e
  | .ok u =>
  match row.getCol "g_flux" with
  | .error e => .error e
  | .ok g =>
  match row.getCol "z_flux" with
  | .error e => .error e
  | .ok z1 =>
  match row.getCol "r_flux" with
  | .error e => .error e
  | .ok rr =>
  match row.getCol "J_flux" with
  | .error e => .error e
  | .ok j =>
  match ch1_clause row lim with
  | .error e => .error e
  | .ok orc =>
  match row.getCol "F_SPIRE_250" with
  | .error e => .error e
  | .ok f250 =>
  match row.getCol "F_PACS_160" with
  | .error e => .error e
  | .ok f160 =>
  match row.getCol "F_PACS_100" with
  | .error e => .error e
  | .ok f100 =>
  match row.getCol "K_flux" with
  | .error e => .error e
  | .ok k =>
  match row.getCol "F_MIPS_24" with
  | .error e => .error e
  | .ok f24 =>
  .ok (decide (u > lim) && decide (g > lim) && decide (z1 > lim) &&
       decide (rr > lim) && decide (j > lim) &&
       orc && decide (f250 > lim) && decide (f160 > lim) &&
       decide (f100 > lim) && decide (k > lim) && decide (f24 > lim))

/-- The twelve required column names, used to build concrete witness rows. -/
def required_cols : List String :=
  ["u_flux", "g_flux", "r_flux", "z_flux", "J_flux", "K_flux",
   "ch1_swire_flux", "ch1_servs_flux", "F_SPIRE_250", "F_PACS_160",
   "F_PACS_100", "F_MIPS_24"]

/-- A concrete row holding the value v in every required column. -/
def uniformRow (v : Int) : Row := ⟨required_cols.map (fun c => (c, v))⟩

/-- A concrete row with no columns at all: every lookup on it errors. -/
def emptyRow : Row := ⟨[]⟩

lemma validB_eq_of (lim : Int) (row : Row) (b : Bool)
    (h : row_is_valid row lim = .ok b) : validB lim row = b := by
  simp [validB, h]

lemma short_table_loop_stop (lim : Int) (rows selection : List Row)
    (h : 50 ≤ selection.length) : short_table_loop lim rows selection = .ok selection := by
  cases rows with
  | nil => rfl
  | cons row rest => simp [short_table_loop, h]

lemma short_table_loop_reach (lim : Int) (pre : List Row) :
    ∀ sel rest : List Row,
      (∀ r ∈ pre, ∃ b, row_is_valid r lim = .ok b) →
      50 ≤ sel.length + (pre.filter (validB lim)).length →
      short_table_loop lim (pre ++ rest) sel =
        .ok (sel ++ (pre.filter (validB lim)).take (50 - sel.length)) := by
  induction pre with
  | nil =>
    intro sel rest _ hcount
    simp only [List.filter_nil, List.length_nil, Nat.add_zero] at hcount
    simp [short_table_loop_stop lim rest sel hcount, Nat.sub_eq_zero_of_le hcount]
  | cons row pre ih =>
    intro sel rest hok hcount
    by_cases hsel : 50 ≤ sel.length
    · rw [List.cons_append, short_table_loop_stop lim _ sel hsel,
        Nat.sub_eq_zero_of_le hsel]
      simp
    · obtain ⟨b, hb⟩ := hok row (List.mem_cons_self row pre)
      have hvb := validB_eq_of lim row b hb
      have hok' : ∀ r ∈ pre, ∃ b, row_is_valid r lim = .ok b :=
        fun r hr => hok r (List.mem_cons_of_mem row hr)
      rw [List.cons_append]
      rw [show short_table_loop lim (row :: (pre ++ rest)) sel =
          (if sel.length ≥ 50 then .ok sel
           else match row_is_valid row lim with
             | .error e => .error e
             | .ok true => short_table_loop lim (pre ++ rest) (sel ++ [row])
             | .ok false => short_table_loop lim (pre ++ rest) sel) from rfl]
      rw [if_neg hsel, hb]
      cases b with
      | true =>
        have hfil : (row :: pre).filter (validB lim) = row :: pre.filter (validB lim) := by
          simp [List.filter_cons, hvb]
        rw [hfil] at hcount ⊢
        have hcount' : 50 ≤ (sel ++ [row]).length + (pre.filter (validB lim)).length := by
          simp at hcount ⊢
          omega
        rw [ih (sel ++ [row]) rest hok' hcount']
        have htake : 50 - sel.length = (50 - (sel ++ [row]).length) + 1 := by
          simp
          omega
        rw [htake, List.take_succ_cons]
        simp
      | false =>
        have hfil : (row :: pre).filter (validB lim) = pre.filter (validB lim) := by
          simp [List.filter_cons, hvb]
        rw [hfil] at hcount ⊢
        exact ih sel rest hok' hcount

lemma short_table_loop_under (lim : Int) (pre : List Row) :
    ∀ sel rest : List Row,
      (∀ r ∈ pre, ∃ b, row_is_valid r lim = .ok b) →
      sel.length + (pre.filter (validB lim)).length < 50 →
      short_table_loop lim (pre ++ rest) sel =
        short_table_loop lim rest (sel ++ pre.filter (validB lim)) := by
  induction pre with
  | nil => intro sel rest _ _; simp
  | cons row pre ih =>
    intro sel rest hok hcount
    have hsel : ¬ 50 ≤ sel.length := by
      intro hge
      have : (((row :: pre).filter (validB lim)).length : Nat) ≥ 0 := Nat.zero_le _
      omega
    obtain ⟨b, hb⟩ := hok row (List.mem_cons_self row pre)
    have hvb := validB_eq_of lim row b hb
    have hok' : ∀ r ∈ pre, ∃ b, row_is_valid r lim = .ok b :=
      fun r hr => hok r (List.mem_cons_of_mem row hr)
    rw [List.cons_append]
    rw [show short_table_loop lim (row :: (pre ++ rest)) sel =
        (if sel.length ≥ 50 then .ok sel
         else match row_is_valid row lim with
           | .error e => .error e
           | .ok true => short_table_loop lim (pre ++ rest) (sel ++ [row])
           | .ok false => short_table_loop lim (pre ++ rest) sel) from rfl]
    rw [if_neg hsel, hb]
    cases b with
    | true =>
      have hfil : (row :: pre).filter (validB lim) = row :: pre.filter (validB lim) := by
        simp [List.filter_cons, hvb]
      rw [hfil] at hcount ⊢
      have hcount' : (sel ++ [row]).length + (pre.filter (validB lim)).length < 50 := by
        simp at hcount ⊢
        omega
      rw [ih (sel ++ [row]) rest hok' hcount']
      simp
    | false =>
      have hfil : (row :: pre).filter (validB lim) = pre.filter (validB lim) := by
        simp [List.filter_cons, hvb]
      rw [hfil] at hcount ⊢
      exact ih sel rest hok' hcount

lemma short_table_loop_length_le (lim : Int) (rows : List Row) :
    ∀ sel out : List Row, sel.length ≤ 50 →
      short_table_loop lim rows sel = .ok out → out.length ≤ 50 := by
  induction rows with
  | nil =>
    intro sel out hsel h
    simp only [short_table_loop, Except.ok.injEq] at h
    rw [← h]; exact hsel
  | cons row rest ih =>
    intro sel out hsel h
    by_cases hge : 50 ≤ sel.length
    · rw [short_table_loop_stop lim _ sel hge] at h
      injection h with h'
      rw [← h']; exact hsel
    · rw [show short_table_loop lim (row :: rest) sel =
          (if sel.length ≥ 50 then .ok sel
           else match row_is_valid row lim with
             | .error e => .error e
             | .ok true => short_table_loop lim rest (sel ++ [row])
             | .ok false => short_table_loop lim rest sel) from rfl, if_neg hge] at h
      cases hb : row_is_valid row lim with
      | error e => rw [hb] at h; cases h
      | ok b =>
        rw [hb] at h
        cases b with
        | true =>
          have hlen : (sel ++ [row]).length ≤ 50 := by
            simp
            omega
          exact ih (sel ++ [row]) out hlen h
        | false => exact ih sel out hsel h

lemma short_table_loop_sublist_aux (lim : Int) (rows : List Row) :
    ∀ sel out : List Row, short_table_loop lim rows sel = .ok out →
      ∃ s, out = sel ++ s ∧ s.Sublist rows := by
  induction rows with
  | nil =>
    intro sel out h
    simp only [short_table_loop, Except.ok.injEq] at h
    exact ⟨[], by simp [← h], List.nil_sublist _⟩
  | cons row rest ih =>
    intro sel out h
    by_cases hge : 50 ≤ sel.length
    · rw [short_table_loop_stop lim _ sel hge] at h
      injection h with h'
      exact ⟨[], by simp [← h'], List.nil_sublist _⟩
    · rw [show short_table_loop lim (row :: rest) sel =
          (if sel.length ≥ 50 then .ok sel
           else match row_is_valid row lim with
             | .error e => .error e
             | .ok true => short_table_loop lim rest (sel ++ [row])
             | .ok false => short_table_loop lim rest sel) from rfl, if_neg hge] at h
      cases hb : row_is_valid row lim with
      | error e => rw [hb] at h; cases h
      | ok b =>
        rw [hb] at h
        cases b with
        | true =>
          obtain ⟨s, hs, hsub⟩ := ih (sel ++ [row]) out h
          exact ⟨row :: s, by simp [hs], List.Sublist.cons₂ row hsub⟩
        | false =>
          obtain ⟨s, hs, hsub⟩ := ih sel out h
          exact ⟨s, hs, List.Sublist.cons row hsub⟩

lemma valid_true_iff (r : Row) (lim : Int) :
    row_is_valid r lim = .ok true ↔
      ((∃ v, r.getCol "u_flux" = .ok v ∧ v > lim) ∧
       (∃ v, r.getCol "g_flux" = .ok v ∧ v > lim) ∧
       (∃ v, r.getCol "z_flux" = .ok v ∧ v > lim) ∧
       (∃ v, r.getCol "r_flux" = .ok v ∧ v > lim) ∧
       (∃ v, r.getCol "J_flux" = .ok v ∧ v > lim) ∧
       (∃ v, r.getCol "ch1_swire_flux" = .ok v ∧
         (v > lim ∨ ∃ w, r.getCol "ch1_servs_flux" = .ok w ∧ w > lim)) ∧
       (∃ v, r.getCol "F_SPIRE_250" = .ok v ∧ v > lim) ∧
       (∃ v, r.getCol "F_PACS_160" = .ok v ∧ v > lim) ∧
       (∃ v, r.getCol "F_PACS_100" = .ok v ∧ v > lim) ∧
       (∃ v, r.getCol "K_flux" = .ok v ∧ v > lim) ∧
       (∃ v, r.getCol "F_MIPS_24" = .ok v ∧ v > lim)) := by
  unfold row_is_valid ch1_clause
  cases hu : r.getCol "u_flux" with
  | error e => simp
  | ok u =>
  cases hg : r.getCol "g_flux" with
  | error e => simp
  | ok g =>
  cases hz : r.getCol "z_flux" with
  | error e => simp
  | ok z =>
  cases hr : r.getCol "r_flux" with
  | error e => simp
  | ok rv =>
  cases hj : r.getCol "J_flux" with
  | error e => simp
  | ok j =>
  cases hsw : r.getCol "ch1_swire_flux" with
  | error e => simp
  | ok sw =>
  by_cases hswl : sw > lim
  · simp only [if_pos hswl]
    cases h250 : r.getCol "F_SPIRE_250" with
    | error e => simp
    | ok v250 =>
    cases h160 : r.getCol "F_PACS_160" with
    | error e => simp
    | ok v160 =>
    cases h100 : r.getCol "F_PACS_100" with
    | error e => simp
    | ok v100 =>
    cases hk : r.getCol "K_flux" with
    | error e => simp
    | ok k =>
    cases h24 : r.getCol "F_MIPS_24" with
    | error e => simp
    | ok v24 =>
    simp [hswl]
    tauto
  · simp only [if_neg hswl]
    cases hse : r.getCol "ch1_servs_flux" with
    | error e => simp [hswl]
    | ok se =>
    cases h250 : r.getCol "F_SPIRE_250" with
    | error e => simp
    | ok v250 =>
    cases h160 : r.getCol "F_PACS_160" with
    | error e => simp
    | ok v160 =>
    cases h100 : r.getCol "F_PACS_100" with
    | error e => simp
    | ok v100 =>
    cases hk : r.getCol "K_flux" with
    | error e => simp
    | ok k =>
    cases h24 : r.getCol "F_MIPS_24" with
    | error e => simp
    | ok v24 =>
    simp [hswl]
    tauto

/-- Claim C1: row_is_valid(r, lim) returns true iff each of the required
columns u_flux, g_flux, r_flux, z_flux, J_flux, K_flux, F_SPIRE_250,
F_PACS_160, F_PACS_100, F_MIPS_24 is strictly greater than lim and at
least one of ch1_swire_flux or ch1_servs_flux is strictly greater than
lim; the comparisons are strict, so a value exactly equal to lim fails
its check. -/
theorem row_is_valid_true_iff_thresholds (r : Row) (lim u g rv z j k sw se f250 f160 f100 f24 : Int)
    (hu : r.getCol "u_flux" = .ok u) (hg : r.getCol "g_flux" = .ok g)
    (hr : r.getCol "r_flux" = .ok rv) (hz : r.getCol "z_flux" = .ok z)
    (hj : r.getCol "J_flux" = .ok j) (hk : r.getCol "K_flux" = .ok k)
    (hsw : r.getCol "ch1_swire_flux" = .ok sw) (hse : r.getCol "ch1_servs_flux" = .ok se)
    (h250 : r.getCol "F_SPIRE_250" = .ok f250) (h160 : r.getCol "F_PACS_160" = .ok f160)
    (h100 : r.getCol "F_PACS_100" = .ok f100) (h24 : r.getCol "F_MIPS_24" = .ok f24) :
    row_is_valid r lim = .ok true ↔
      (u > lim ∧ g > lim ∧ rv > lim ∧ z > lim ∧ j > lim ∧ k > lim ∧
       f250 > lim ∧ f160 > lim ∧ f100 > lim ∧ f24 > lim ∧ (sw > lim ∨ se > lim)) := by
  rw [valid_true_iff]
  simp [hu, hg, hr, hz, hj, hk, hsw, hse, h250, h160, h100, h24]
  tauto

/-- Witness for claim C1 at a concrete row holding 100 in every column. -/
theorem row_is_valid_true_iff_thresholds_witness :
    row_is_valid (uniformRow 100) 10 = .ok true ↔
      ((100:Int) > 10 ∧ (100:Int) > 10 ∧ (100:Int) > 10 ∧ (100:Int) > 10 ∧ (100:Int) > 10 ∧
       (100:Int) > 10 ∧ (100:Int) > 10 ∧ (100:Int) > 10 ∧ (100:Int) > 10 ∧ (100:Int) > 10 ∧
       ((100:Int) > 10 ∨ (100:Int) > 10)) :=
  row_is_valid_true_iff_thresholds (uniformRow 100) 10 100 100 100 100 100 100 100 100 100 100 100 100
    rfl rfl rfl rfl rfl rfl rfl rfl rfl rfl rfl rfl

/-- Claim C2: when the source rows split as pre ++ post with pre holding
at least 50 valid rows (and the predicate erroring on none of them),
short_table returns exactly the first 50 valid rows of pre in source
order, whatever post holds: the rows after the 50th valid one are never
evaluated, so even erroring rows there cannot affect the result. -/
theorem short_table_first_fifty (names dtype : List String) (pre post : List Row) (lim : Int)
    (hok : ∀ r ∈ pre, ∃ b, row_is_valid r lim = .ok b)
    (hcount : 50 ≤ (pre.filter (validB lim)).length) :
    short_table ⟨names, dtype, pre ++ post⟩ lim =
      .ok ⟨names, dtype, (pre.filter (validB lim)).take 50⟩ := by
  have h := short_table_loop_reach lim pre [] post hok (by simpa using hcount)
  simp only [List.nil_append, Nat.sub_zero] at h
  simp [short_table, h]

/-- Witness for claim C2: 50 valid rows followed by a row on which the
predicate errors; the result still holds exactly the 50 valid rows. -/
theorem short_table_first_fifty_witness :
    short_table ⟨["u_flux"], ["f8"], List.replicate 50 (uniformRow 100) ++ [emptyRow]⟩ 10 =
      .ok ⟨["u_flux"], ["f8"],
        ((List.replicate 50 (uniformRow 100)).filter (validB 10)).take 50⟩ :=
  short_table_first_fifty ["u_flux"] ["f8"] (List.replicate 50 (uniformRow 100)) [emptyRow] 10
    (fun r hr => by rw [List.eq_of_mem_replicate hr]; exact ⟨true, rfl⟩)
    (by decide)

/-- Claim C3: whenever short_table returns a table, that table holds at
most 50 rows (and, its row list being a list, at least 0). -/
theorem short_table_length_le_fifty (table : Table) (lim : Int) (out : Table)
    (h : short_table table lim = .ok out) : out.rows.length ≤ 50 := by
  unfold short_table at h
  cases hloop : short_table_loop lim table.rows [] with
  | error e => rw [hloop] at h; cases h
  | ok sel =>
    rw [hloop] at h
    injection h with h'
    rw [← h']
    exact short_table_loop_length_le lim table.rows [] sel (by simp) hloop

/-- Witness for claim C3 on a one-row table whose row fails the predicate. -/
theorem short_table_length_le_fifty_witness :
    (Table.mk ["u_flux"] ["f8"] []).rows.length ≤ 50 :=
  short_table_length_le_fifty ⟨["u_flux"], ["f8"], [uniformRow 0]⟩ 10
    ⟨["u_flux"], ["f8"], []⟩ rfl

/-- Claim C4: the rows of a table returned by short_table form a
subsequence of the source rows: relative order is preserved and nothing
is reordered. -/
theorem short_table_rows_sublist (table : Table) (lim : Int) (out : Table)
    (h : short_table table lim = .ok out) : out.rows.Sublist table.rows := by
  unfold short_table at h
  cases hloop : short_table_loop lim table.rows [] with
  | error e => rw [hloop] at h; cases h
  | ok sel =>
    rw [hloop] at h
    injection h with h'
    rw [← h']
    obtain ⟨s, hs, hsub⟩ := short_table_loop_sublist_aux lim table.rows [] sel hloop
    simpa [hs] using hsub

/-- Witness for claim C4 on a two-row table where only the second row passes. -/
theorem short_table_rows_sublist_witness :
    (Table.mk ["g_flux"] ["f8"] [uniformRow 100]).rows.Sublist
      (Table.mk ["g_flux"] ["f8"] [uniformRow 0, uniformRow 100]).rows :=
  short_table_rows_sublist ⟨["g_flux"], ["f8"], [uniformRow 0, uniformRow 100]⟩ 10
    ⟨["g_flux"], ["f8"], [uniformRow 100]⟩ rfl

/-- Claim C5: for a non-empty source table, a table returned by
short_table carries exactly the same schema: identical column names in
identical order and identical per-column dtypes. -/
theorem short_table_schema_preserved (table : Table) (lim : Int) (out : Table)
    (_hne : table.rows ≠ []) (h : short_table table lim = .ok out) :
    out.names = table.names ∧ out.dtype = table.dtype := by
  unfold short_table at h
  cases hloop : short_table_loop lim table.rows [] with
  | error e => rw [hloop] at h; cases h
  | ok sel =>
    rw [hloop] at h
    injection h with h'
    rw [← h']
    exact ⟨rfl, rfl⟩

/-- Witness for claim C5 on a concrete two-column schema. -/
theorem short_table_schema_preserved_witness :
    (Table.mk ["z_flux", "J_flux"] ["f8", "i4"] [uniformRow 7]).names =
        (Table.mk ["z_flux", "J_flux"] ["f8", "i4"] [uniformRow 7, uniformRow 0]).names ∧
      (Table.mk ["z_flux", "J_flux"] ["f8", "i4"] [uniformRow 7]).dtype =
        (Table.mk ["z_flux", "J_flux"] ["f8", "i4"] [uniformRow 7, uniformRow 0]).dtype :=
  short_table_schema_preserved ⟨["z_flux", "J_flux"], ["f8", "i4"], [uniformRow 7, uniformRow 0]⟩ 5
    ⟨["z_flux", "J_flux"], ["f8", "i4"], [uniformRow 7]⟩ (List.cons_ne_nil _ _) rfl

/-- Claim C6: row_is_valid is monotonically non-increasing in the
threshold: a row valid at lim2 is valid at every lim1 at most lim2, so
raising lim can only remove rows from the qualifying set. -/
theorem row_is_valid_antitone_in_lim (r : Row) (lim1 lim2 : Int) (hle : lim1 ≤ lim2)
    (h : row_is_valid r lim2 = .ok true) : row_is_valid r lim1 = .ok true := by
  rw [valid_true_iff] at h ⊢
  obtain ⟨⟨u, hu, hu2⟩, ⟨g, hg, hg2⟩, ⟨z, hz, hz2⟩, ⟨rv, hr, hr2⟩, ⟨j, hj, hj2⟩,
    ⟨sw, hsw, hsw2⟩, ⟨a, ha, ha2⟩, ⟨b, hb, hb2⟩, ⟨c, hc, hc2⟩, ⟨k, hk, hk2⟩, ⟨d, hd, hd2⟩⟩ := h
  refine ⟨⟨u, hu, lt_of_le_of_lt hle hu2⟩, ⟨g, hg, lt_of_le_of_lt hle hg2⟩,
    ⟨z, hz, lt_of_le_of_lt hle hz2⟩, ⟨rv, hr, lt_of_le_of_lt hle hr2⟩,
    ⟨j, hj, lt_of_le_of_lt hle hj2⟩, ⟨sw, hsw, ?_⟩,
    ⟨a, ha, lt_of_le_of_lt hle ha2⟩, ⟨b, hb, lt_of_le_of_lt hle hb2⟩,
    ⟨c, hc, lt_of_le_of_lt hle hc2⟩, ⟨k, hk, lt_of_le_of_lt hle hk2⟩,
    ⟨d, hd, lt_of_le_of_lt hle hd2⟩⟩
  rcases hsw2 with h1 | ⟨w, hw, hw2⟩
  · exact Or.inl (lt_of_le_of_lt hle h1)
  · exact Or.inr ⟨w, hw, lt_of_le_of_lt hle hw2⟩

/-- Witness for claim C6: validity at threshold 20 transfers to threshold 10. -/
theorem row_is_valid_antitone_in_lim_witness :
    row_is_valid (uniformRow 100) 10 = .ok true :=
  row_is_valid_antitone_in_lim (uniformRow 100) 10 20 (by decide) rfl

/-- Claim C7: the duplicated z_flux clause is a no-op: row_is_valid is
extensionally equal to the same predicate with the second z_flux
conjunct removed, which checks each of the twelve enumerated columns
once. -/
theorem row_is_valid_duplicate_z_noop (row : Row) (lim : Int) :
    row_is_valid row lim = row_is_valid_single row lim := by
  unfold row_is_valid row_is_valid_single
  cases hu : row.getCol "u_flux" with
  | error e => rfl
  | ok u =>
  cases hg : row.getCol "g_flux" with
  | error e => rfl
  | ok g =>
  cases hz : row.getCol "z_flux" with
  | error e => rfl
  | ok z =>
  cases hr : row.getCol "r_flux" with
  | error e => rfl
  | ok rv =>
  cases hj : row.getCol "J_flux" with
  | error e => rfl
  | ok j =>
  cases horc : ch1_clause row lim with
  | error e => rfl
  | ok orc =>
  cases h250 : row.getCol "F_SPIRE_250" with
  | error e => rfl
  | ok v250 =>
  cases h160 : row.getCol "F_PACS_160" with
  | error e => rfl
  | ok v160 =>
  cases h100 : row.getCol "F_PACS_100" with
  | error e => rfl
  | ok v100 =>
  cases hk : row.getCol "K_flux" with
  | error e => rfl
  | ok k =>
  cases h24 : row.getCol "F_MIPS_24" with
  | error e => rfl
  | ok v24 =>
  by_cases hzl : z > lim <;> simp [hzl]

/-- Claim C8: if the predicate errors on a row the scan reaches (all
earlier rows evaluate without error and fewer than 50 of them are
valid), then short_table fails as a whole with that error and returns no
table at all. -/
theorem short_table_error_propagates (names dtype : List String) (pre : List Row) (row : Row)
    (post : List Row) (lim : Int) (e : String)
    (hok : ∀ r ∈ pre, ∃ b, row_is_valid r lim = .ok b)
    (hcount : (pre.filter (validB lim)).length < 50)
    (herr : row_is_valid row lim = .error e) :
    short_table ⟨names, dtype, pre ++ row :: post⟩ lim = .error e := by
  have h := short_table_loop_under lim pre [] (row :: post) hok (by simpa using hcount)
  simp only [List.nil_append] at h
  have hnot : ¬ 50 ≤ (pre.filter (validB lim)).length := not_le.mpr hcount
  have hstep : short_table_loop lim (row :: post) (pre.filter (validB lim)) = .error e := by
    rw [show short_table_loop lim (row :: post) (pre.filter (validB lim)) =
        (if (pre.filter (validB lim)).length ≥ 50 then .ok (pre.filter (validB lim))
         else match row_is_valid row lim with
           | .error e => .error e
           | .ok true => short_table_loop lim post (pre.filter (validB lim) ++ [row])
           | .ok false => short_table_loop lim post (pre.filter (validB lim))) from rfl,
      if_neg hnot, herr]
  simp [short_table, h, hstep]

/-- Witness for claim C8: a table whose only row lacks every column makes
short_table fail with the error naming the first looked-up column. -/
theorem short_table_error_propagates_witness :
    short_table ⟨["u_flux"], ["f8"], [emptyRow]⟩ 10 = .error "u_flux" :=
  short_table_error_propagates ["u_flux"] ["f8"] [] emptyRow [] 10 "u_flux"
    (fun r hr => absurd hr (List.not_mem_nil r)) (by decide) rfl

/-- Claim C9: on an empty source table short_table returns, without any
error, an empty table carrying the same schema as the source. -/
theorem short_table_empty_table (names dtype : List String) (lim : Int) :
    short_table ⟨names, dtype, []⟩ lim = .ok ⟨names, dtype, []⟩ := rfl

/-- Claim C10: row_is_valid evaluates without error exactly when all the
always-read columns (u_flux, g_flux, z_flux, r_flux, J_flux,
ch1_swire_flux, F_SPIRE_250, F_PACS_160, F_PACS_100, K_flux, F_MIPS_24)
are present and either the ch1_swire_flux value exceeds lim (so the `or`
short-circuits and ch1_servs_flux is never read) or ch1_servs_flux is
present as well.  In particular success never depends on any comparison
other than the one on ch1_swire_flux: an absent required column errors
even when another conjunct is already false, because `&` does not
short-circuit. -/
theorem row_is_valid_ok_iff_columns_present (r : Row) (lim : Int) :
    (∃ b, row_is_valid r lim = .ok b) ↔
      ((∃ v, r.getCol "u_flux" = .ok v) ∧
       (∃ v, r.getCol "g_flux" = .ok v) ∧
       (∃ v, r.getCol "z_flux" = .ok v) ∧
       (∃ v, r.getCol "r_flux" = .ok v) ∧
       (∃ v, r.getCol "J_flux" = .ok v) ∧
       (∃ v, r.getCol "ch1_swire_flux" = .ok v ∧
         (v > lim ∨ ∃ w, r.getCol "ch1_servs_flux" = .ok w)) ∧
       (∃ v, r.getCol "F_SPIRE_250" = .ok v) ∧
       (∃ v, r.getCol "F_PACS_160" = .ok v) ∧
       (∃ v, r.getCol "F_PACS_100" = .ok v) ∧
       (∃ v, r.getCol "K_flux" = .ok v) ∧
       (∃ v, r.getCol "F_MIPS_24" = .ok v)) := by
  unfold row_is_valid ch1_clause
  cases hu : r.getCol "u_flux" with
  | error e => simp
  | ok u =>
  cases hg : r.getCol "g_flux" with
  | error e => simp
  | ok g =>
  cases hz : r.getCol "z_flux" with
  | error e => simp
  | ok z =>
  cases hr : r.getCol "r_flux" with
  | error e => simp
  | ok rv =>
  cases hj : r.getCol "J_flux" with
  | error e => simp
  | ok j =>
  cases hsw : r.getCol "ch1_swire_flux" with
  | error e => simp
  | ok sw =>
  by_cases hswl : sw > lim
  · simp only [if_pos hswl]
    cases h250 : r.getCol "F_SPIRE_250" with
    | error e => simp
    | ok v250 =>
    cases h160 : r.getCol "F_PACS_160" with
    | error e => simp
    | ok v160 =>
    cases h100 : r.getCol "F_PACS_100" with
    | error e => simp
    | ok v100 =>
    cases hk : r.getCol "K_flux" with
    | error e => simp
    | ok k =>
    cases h24 : r.getCol "F_MIPS_24" with
    | error e => simp
    | ok v24 =>
    simp [hswl]
  · simp only [if_neg hswl]
    cases hse : r.getCol "ch1_servs_flux" with
    | error e => simp [hswl]
    | ok se =>
    cases h250 : r.getCol "F_SPIRE_250" with
    | error e => simp
    | ok v250 =>
    cases h160 : r.getCol "F_PACS_160" with
    | error e => simp
    | ok v160 =>
    cases h100 : r.getCol "F_PACS_100" with
    | error e => simp
    | ok v100 =>
    cases hk : r.getCol "K_flux" with
    | error e => simp
    | ok k =>
    cases h24 : r.getCol "F_MIPS_24" with
    | error e => simp
    | ok v24 =>
    simp
